import Mathlib

/-!
# Verification of the ic-test-utils wallet-forwarding and ledger-bootstrap helpers

A shallow embedding of the `ic-test-utils` Rust crate (files `src/lib.rs`,
`src/errors.rs`, `src/canister/mod.rs`, `src/canister/wallet.rs`,
`src/canister/management.rs`, `src/ledger.rs`).  Pure construction code is
translated to Lean functions; the stateful ledger builder is translated to
explicit state passing; fallible code returns `Except`.  External collaborators
(the candid codec, the filesystem, the network transport) are modelled as
explicit parameters or as injective encodings, as noted in the doc comments.
-/

set_option autoImplicit false

namespace ICTestUtils

/-- Bytes on the wire.  Byte values are modelled as `Nat`. -/
abbrev Bytes := List Nat

/-- Rust `ic_agent::ic_types::Principal`: a fixed-length binary canister/user
identifier.  Modelled by its byte contents. -/
structure Principal where
  bytes : Bytes
deriving DecidableEq, Repr

/-- The error enum of `src/errors.rs`.  Variants carrying external error
payloads carry their display text instead.  The `Io` and `Principal` variants
of the source are renamed `IoErr` and `PrincipalErr` (the latter to avoid a
clash with the `Principal` type); all other variant names follow the
source. -/
inductive Error where
  | InvalidOrMissingAccountInJson
  | PrincipalErr (msg : String)
  | IoErr (msg : String)
  | Json (msg : String)
  | Agent (msg : String)
  | Ident (msg : String)
  | MissingConfig
  | Candid (msg : String)
  | Generic (msg : String)
  | MustBeAPercentage
  | InvalidMemorySize (n : Nat)
deriving DecidableEq, Repr

/-- Rust `impl From<String> for Error` in `src/errors.rs`: a plain string becomes
the `Generic` variant. -/
def Error.fromString (s : String) : Error := .Generic s

/-- The fields of `ic_agent::agent::UpdateBuilder` that this crate reads and
writes: destination canister, method name, and the encoded argument (which
`UpdateBuilder::new` initialises to the empty byte string). -/
structure UpdateBuilder where
  canister_id : Principal
  method_name : String
  arg : Bytes
deriving DecidableEq, Repr

/-- Rust `Canister::update_raw` in `src/canister/mod.rs`: build an update call
descriptor against the handle address `self_id`; a `None` argument leaves the
builder argument at its initial empty value. -/
def update_raw (self_id : Principal) (method_name : String) (args : Option Bytes) :
    UpdateBuilder :=
  { canister_id := self_id, method_name := method_name, arg := args.getD [] }

/-! ## Modelled candid codec

The crate delegates all serialization to the external candid library
(`Encode!` / `Decode!`).  Modelled from the spec: the wire format is the host
platform canonical binary interface-description encoding, which is injective
and faithfully reproduces every field on decode.  We model it by an explicit
length-prefixed encoding with an executable decoder. -/

/-- Length-prefixed byte blob (models a candid `blob` field). -/
def encBlob (b : Bytes) : Bytes := b.length :: b

/-- Decode a length-prefixed blob, returning the blob and the remaining
input. -/
def decBlob : Bytes → Option (Bytes × Bytes)
  | [] => none
  | n :: rest => if n ≤ rest.length then some (rest.take n, rest.drop n) else none

/-- Encode a string field as the blob of its character codes. -/
def encStr (s : String) : Bytes := encBlob (s.toList.map Char.toNat)

/-- Decode a string field encoded by `encStr`. -/
def decStr (b : Bytes) : Option (String × Bytes) :=
  match decBlob b with
  | none => none
  | some (cs, rest) => some (String.mk (cs.map Char.ofNat), rest)

/-! ## Wallet call forwarding (`src/canister/wallet.rs`) -/

/-- Rust `CallResult` in `src/canister/wallet.rs`: the success payload of a
forwarded call (the candid field named `return`). -/
structure CallResult where
  payload : Bytes
deriving DecidableEq, Repr

/-- Rust `CallForwardArgs` in `src/canister/wallet.rs`: the wallet-level envelope
around an unsent update call plus the attached cycle amount. -/
structure CallForwardArgs where
  canister : Principal
  method_name : String
  args : Bytes
  cycles : Nat
deriving DecidableEq, Repr

/-- Modelled candid encoding of `CallForwardArgs` (field order as declared). -/
def encode_CallForwardArgs (a : CallForwardArgs) : Bytes :=
  encBlob a.canister.bytes ++ encStr a.method_name ++ encBlob a.args ++ [a.cycles]

/-- The envelope construction step of `Canister::call_forward`
(`src/canister/wallet.rs` lines 96-101): the descriptor fields are copied
verbatim and the cycle amount is attached. -/
def call_forward_envelope (call : UpdateBuilder) (cycles : Nat) : CallForwardArgs :=
  { canister := call.canister_id
    method_name := call.method_name
    args := call.arg
    cycles := cycles }

/-- The submission step of `Canister::call_forward` (`src/canister/wallet.rs`
lines 102-103): an update call against the wallet handle address
`wallet_id`, method `"wallet_call"`, carrying the serialized envelope. -/
def call_forward_request (wallet_id : Principal) (call : UpdateBuilder) (cycles : Nat) :
    UpdateBuilder :=
  { canister_id := wallet_id
    method_name := "wallet_call"
    arg := encode_CallForwardArgs (call_forward_envelope call cycles) }

/-- The unwrap step of `Canister::call_forward` (`src/canister/wallet.rs`
lines 104-106): `Decode!(&data, Result<CallResult, String>)??`.  The outer
layer is the candid decode of the reply (failure becomes `Error.Candid`); the
inner layer is the wallet-reported result (an `Err` string becomes
`Error.Generic` through `From<String> for Error`); on success the opaque
payload bytes are returned. -/
def call_forward_unwrap (decoded : Except String (Except String CallResult)) :
    Except Error Bytes :=
  match decoded with
  | .error e => .error (.Candid e)
  | .ok (.error m) => .error (Error.fromString m)
  | .ok (.ok r) => .ok r.payload

/-- Rust `Canister::call_forward` (`src/canister/wallet.rs` lines 95-107), with the
network transport and the candid decode of the raw reply abstracted as
explicit function parameters: build the envelope, submit it to the wallet,
and unwrap the two result layers. -/
def call_forward (wallet_id : Principal) (call : UpdateBuilder) (cycles : Nat)
    (transport : UpdateBuilder → Except Error Bytes)
    (decodeReply : Bytes → Except String (Except String CallResult)) :
    Except Error Bytes :=
  match transport (call_forward_request wallet_id call cycles) with
  | .error e => .error e
  | .ok data => call_forward_unwrap (decodeReply data)

/-! ## Management operations (`src/canister/management.rs`) -/

/-- Rust `InstallMode` in `src/canister/management.rs`: the closed enumeration of
install modes. -/
inductive InstallMode where
  | Install
  | Reinstall
  | Upgrade
deriving DecidableEq, Repr

/-- Rust `CanisterInstall` in `src/canister/management.rs`: the installation
payload for install/reinstall/upgrade. -/
structure CanisterInstall where
  mode : InstallMode
  canister_id : Principal
  wasm_module : Bytes
  arg : Bytes
deriving DecidableEq, Repr

/-- Modelled candid variant tag for `InstallMode` (renames `install`,
`reinstall`, `upgrade`). -/
def encodeInstallMode : InstallMode → Nat
  | .Install => 0
  | .Reinstall => 1
  | .Upgrade => 2

/-- Inverse of `encodeInstallMode` on the three declared tags. -/
def decodeInstallMode : Nat → Option InstallMode
  | 0 => some .Install
  | 1 => some .Reinstall
  | 2 => some .Upgrade
  | _ => none

/-- Modelled candid encoding of a `CanisterInstall` payload: mode tag, then
the three byte fields, each length-prefixed, in declaration order. -/
def encode_CanisterInstall (c : CanisterInstall) : Bytes :=
  encodeInstallMode c.mode ::
    (encBlob c.canister_id.bytes ++ encBlob c.wasm_module ++ encBlob c.arg)

/-- Modelled candid decoding of a `CanisterInstall` payload; fails on any
input that is not the exact encoding of a payload. -/
def decode_CanisterInstall (b : Bytes) : Option CanisterInstall :=
  match b with
  | [] => none
  | t :: rest =>
    match decodeInstallMode t with
    | none => none
    | some mode =>
      match decBlob rest with
      | none => none
      | some (cid, r1) =>
        match decBlob r1 with
        | none => none
        | some (wasm, r2) =>
          match decBlob r2 with
          | some (arg, []) =>
            some { mode := mode, canister_id := ⟨cid⟩, wasm_module := wasm, arg := arg }
          | _ => none

/-- Rust `In` in `src/canister/management.rs`: the single-field payload carrying
the canister id for stop/delete. Encoded as the blob of the principal. -/
def encode_In (canister_id : Principal) : Bytes := encBlob canister_id.bytes

/-- The candid type at which a management operation decodes the forwarding
result: the turbofish of each `through_wallet_call::<Out>` call site. -/
inductive OutType where
  | unit
  | principal
deriving DecidableEq, Repr

/-- A decoded forwarding result: either the empty success payload (Rust `()`)
or a returned canister address. -/
inductive DecodedOut where
  | unit
  | principal (p : Principal)
deriving DecidableEq, Repr

/-- Modelled candid message carrying the empty tuple. -/
def encodeMsgUnit : Bytes := [0]

/-- Modelled candid message carrying a single principal. -/
def encodeMsgPrincipal (p : Principal) : Bytes := 1 :: encBlob p.bytes

/-- Modelled candid decoding at a given expected result type
(`Decode!(&result, Out)`): decoding at `()` succeeds only on the empty-tuple
message, decoding at `Principal` succeeds only on a principal message.  A
payload of the wrong shape fails to decode. -/
def decodeAt : OutType → Bytes → Option DecodedOut
  | .unit, b => if b = encodeMsgUnit then some .unit else none
  | .principal, b =>
    match b with
    | 1 :: rest =>
      match decBlob rest with
      | some (pb, []) => some (.principal ⟨pb⟩)
      | _ => none
    | _ => none

/-- Display text of the candid error produced by a failed
`Decode!(&result, Out)`; the exact text lives in the external candid
library. -/
def candidMismatchMsg : String := "failed to decode result payload"

/-- The final decode step of `Canister::through_wallet_call`
(`src/canister/management.rs` line 82): decode the forwarded payload at the
expected output type; a mismatch is a candid error. -/
def decode_out_step (out : OutType) (payload : Bytes) : Except Error DecodedOut :=
  match decodeAt out payload with
  | none => .error (.Candid candidMismatchMsg)
  | some v => .ok v

/-- Rust `Canister::through_wallet_call` (`src/canister/management.rs` lines
70-84): build a raw update descriptor against the management handle address,
forward it through the wallet, and decode the result at the expected output
type. -/
def through_wallet_call (self_id wallet_id : Principal) (fn_name : String)
    (out : OutType) (cycles : Nat) (arg : Option Bytes)
    (transport : UpdateBuilder → Except Error Bytes)
    (decodeReply : Bytes → Except String (Except String CallResult)) :
    Except Error DecodedOut :=
  match call_forward wallet_id (update_raw self_id fn_name arg) cycles transport decodeReply with
  | .error e => .error e
  | .ok result => decode_out_step out result

/-- The forwarded-call descriptor a management operation hands to
`through_wallet_call`: method name, cycle amount, encoded argument, and the
expected result type. -/
structure ForwardCall where
  fn_name : String
  cycles : Nat
  arg : Option Bytes
  out : OutType
deriving DecidableEq, Repr

/-- Rust `Canister::install_code` (`src/canister/management.rs` lines 88-106):
builds a `CanisterInstall` with mode `Install` and forwards it as
`through_wallet_call::<()>(wallet, "install_code", 0, ..)`. `arg_encoded`
stands for the already-encoded extra argument (`encode_args(arg)`). -/
def install_code (canister_id : Principal) (bytecode : Bytes) (arg_encoded : Bytes) :
    ForwardCall :=
  { fn_name := "install_code"
    cycles := 0
    arg := some (encode_CanisterInstall
      { mode := .Install, canister_id := canister_id, wasm_module := bytecode,
        arg := arg_encoded })
    out := .unit }

/-- Rust `Canister::upgrade_code` (`src/canister/management.rs` lines 110-127):
builds a `CanisterInstall` with mode `Upgrade` and forwards it as
`through_wallet_call::<Principal>(wallet, "upgrade_code", 0, ..)`. -/
def upgrade_code (canister_id : Principal) (bytecode : Bytes) (arg_encoded : Bytes) :
    ForwardCall :=
  { fn_name := "upgrade_code"
    cycles := 0
    arg := some (encode_CanisterInstall
      { mode := .Upgrade, canister_id := canister_id, wasm_module := bytecode,
        arg := arg_encoded })
    out := .principal }

/-- Rust `Canister::stop_canister` (`src/canister/management.rs` lines 130-138):
forwards the canister id as `through_wallet_call::<()>(wallet,
"stop_canister", 0, ..)`. -/
def stop_canister (canister_id : Principal) : ForwardCall :=
  { fn_name := "stop_canister"
    cycles := 0
    arg := some (encode_In canister_id)
    out := .unit }

/-- Rust `Canister::delete_canister` (`src/canister/management.rs` lines 142-150):
forwards the canister id as `through_wallet_call(wallet, "delete_canister",
0, ..)` whose result type is the empty success payload. -/
def delete_canister (canister_id : Principal) : ForwardCall :=
  { fn_name := "delete_canister"
    cycles := 0
    arg := some (encode_In canister_id)
    out := .unit }

/-! ## Identity resolution (`src/lib.rs`) and ledger bootstrap (`src/ledger.rs`) -/

/-- Rust `ic_agent::identity::BasicIdentity`, as this crate uses it: an identity
loaded from a PEM file whose `sender()` method yields the derived principal
or a textual error. -/
structure BasicIdentity where
  sender : Except String Principal

/-- The filesystem environment `get_identity` consults: the result of
`dirs::config_dir()` and, per path, the identity parsed from the PEM file at
that path (`none` models a missing or unreadable file, which
`BasicIdentity::from_pem_file` reports as a PEM error). -/
structure Env where
  configDir : Option String
  pemFile : String → Option BasicIdentity

/-- The identity path convention of `get_identity` in `src/lib.rs`:
`<config_dir>/dfx/identity/<account_name>/identity.pem`. -/
def identPath (configDir account_name : String) : String :=
  configDir ++ "/dfx/identity/" ++ account_name ++ "/identity.pem"

/-- Rust `get_identity` in `src/lib.rs` lines 24-32: a missing config directory is
`Error::MissingConfig`; a missing or unreadable PEM file is the identity
error (`Error::Ident`, carrying the display text of the PEM failure,
modelled here by the offending path). -/
def get_identity (env : Env) (account_name : String) : Except Error BasicIdentity :=
  match env.configDir with
  | none => .error .MissingConfig
  | some d =>
    match env.pemFile (identPath d account_name) with
    | none => .error (.Ident (identPath d account_name))
    | some i => .ok i

/-- Token amount (`ledger_canister::Tokens`), modelled by its e8s value. -/
abbrev Tokens := Nat

/-- Rust `ledger_canister::AccountIdentifier`.  Modelled from the spec: the
address-derived account identifier of a principal with the default
subaccount; the derivation (a hash in the external ledger_canister crate) is
modelled as the injective pairing with the principal. -/
structure AccountIdentifier where
  ofPrincipal : Principal
deriving DecidableEq, Repr

/-- Rust `AccountIdentifier::new(principal, None)`. -/
def AccountIdentifier.new (p : Principal) : AccountIdentifier := ⟨p⟩

/-- Remove every entry under key `k` (the overwrite half of
`HashMap::insert`). -/
def eraseKey (k : AccountIdentifier) :
    List (AccountIdentifier × Tokens) → List (AccountIdentifier × Tokens)
  | [] => []
  | e :: rest => if e.1 = k then eraseKey k rest else e :: eraseKey k rest

/-- Rust `HashMap::insert`: keys are unique, so inserting replaces any prior
binding of the key. -/
def insertAccount (k : AccountIdentifier) (v : Tokens)
    (l : List (AccountIdentifier × Tokens)) : List (AccountIdentifier × Tokens) :=
  (k, v) :: eraseKey k l

/-- Rust `HashMap::get`: the balance bound to an account identifier, if any. -/
def lookupAccount (k : AccountIdentifier) :
    List (AccountIdentifier × Tokens) → Option Tokens
  | [] => none
  | e :: rest => if e.1 = k then some e.2 else lookupAccount k rest

/-- Key uniqueness of the account mapping (the `HashMap` invariant). -/
def keysUnique (l : List (AccountIdentifier × Tokens)) : Prop :=
  (l.map Prod.fst).Nodup

/-- Rust `LedgerBuilder` in `src/ledger.rs`: the owner identity path and the
accumulated account mapping.  The `HashMap` is modelled as an association
list with unique keys. -/
structure LedgerBuilder where
  owner : String
  accounts : List (AccountIdentifier × Tokens)

/-- Rust `new_ledger_canister` / `LedgerBuilder::new` in `src/ledger.rs`: a fresh
builder with an empty mapping. -/
def new_ledger_canister (owner : String) : LedgerBuilder :=
  { owner := owner, accounts := [] }

/-- Rust `ledger_canister::LedgerCanisterInitPayload`, with the fields this crate
sets.  The tuning fields are modelled by `Option` of an opaque payload. -/
structure LedgerCanisterInitPayload where
  minting_account : AccountIdentifier
  initial_values : List (AccountIdentifier × Tokens)
  max_message_size_bytes : Option Nat
  transaction_window : Option Nat
  archive_options : Option Unit
  send_whitelist : List Principal

/-- Modelled from the spec: the bundled precompiled ledger module
(`include_bytes!("ledger.wasm")`), an opaque byte blob installed verbatim;
its contents never matter to any claim. -/
def LEDGER_WASM : Bytes := []

/-- The canister-creation call `LedgerBuilder::build` issues through
`create_canister` (`src/ledger.rs` lines 67-68): the wallet account name,
the ledger module bytes, the initialization payload, and the cycle budget.
`create_canister` itself is not part of the sources under `src/`; the call
is modelled by the argument record handed to it. -/
structure CreateCall where
  account_name : String
  wasm : Bytes
  arg : LedgerCanisterInitPayload
  cycles : Nat

/-- Rust `LedgerBuilder::with_account` (`src/ledger.rs` lines 75-85), as an
explicit state transformer: resolve the identity by name, derive its account
identifier, and insert the balance; on a resolution failure the builder is
returned unchanged (the Rust `?` early-returns before the insert). -/
def with_account (env : Env) (b : LedgerBuilder) (account_name : String)
    (tokens : Tokens) : LedgerBuilder × Except Error Unit :=
  match get_identity env account_name with
  | .error e => (b, .error e)
  | .ok ident =>
    match ident.sender with
    | .error s => (b, .error (.Generic s))
    | .ok principal =>
      let account := AccountIdentifier.new principal
      ({ b with accounts := insertAccount account tokens b.accounts }, .ok ())

/-- Rust `LedgerBuilder::build` (`src/ledger.rs` lines 47-71), as an explicit
state transformer producing the canister-creation call it issues: resolve
the owner identity (failures early-return with the builder unchanged), take
the accumulated mapping out of the builder (`std::mem::take`, leaving it
empty), wrap it in an initialization payload whose optional tuning fields
are all absent, and issue the creation call with the caller cycles or the
1_000_000_000_000 default. -/
def build (env : Env) (b : LedgerBuilder) (account_name : String)
    (cycles : Option Nat) : LedgerBuilder × Except Error CreateCall :=
  match get_identity env b.owner with
  | .error e => (b, .error e)
  | .ok ident =>
    match ident.sender with
    | .error s => (b, .error (.Generic s))
    | .ok p =>
      let owner := AccountIdentifier.new p
      let initial_values := b.accounts
      let arg : LedgerCanisterInitPayload :=
        { minting_account := owner
          initial_values := initial_values
          max_message_size_bytes := none
          transaction_window := none
          archive_options := none
          send_whitelist := [] }
      ({ b with accounts := [] },
       .ok { account_name := account_name
             wasm := LEDGER_WASM
             arg := arg
             cycles := cycles.getD 1000000000000 })

/-- A concrete filesystem environment for evaluating the ledger operations on
closed inputs: identity files for `alice`, `bob` and `owner` under a fixed
config directory, yielding the principals `[1]`, `[2]` and `[3]`. -/
def envTwo : Env :=
  { configDir := some "/home/user/.config"
    pemFile := fun path =>
      if path = identPath "/home/user/.config" "alice" then some ⟨.ok ⟨[1]⟩⟩
      else if path = identPath "/home/user/.config" "bob" then some ⟨.ok ⟨[2]⟩⟩
      else if path = identPath "/home/user/.config" "owner" then some ⟨.ok ⟨[3]⟩⟩
      else none }

/-! ## Helper lemmas -/

theorem decBlob_encBlob (b rest : Bytes) :
    decBlob (encBlob b ++ rest) = some (b, rest) := by
  simp [encBlob, decBlob, List.take_append, List.drop_append]

theorem decBlob_encBlob_nil (b : Bytes) :
    decBlob (encBlob b) = some (b, []) := by
  simpa using decBlob_encBlob b []

theorem decStr_encStr (s : String) (rest : Bytes) :
    decStr (encStr s ++ rest) = some (s, rest) := by
  simp only [encStr, decStr, decBlob_encBlob]
  rw [List.map_map]
  have h : s.toList.map (Char.ofNat ∘ Char.toNat) = s.toList := by
    induction s.toList with
    | nil => rfl
    | cons c t ih => simp [ih, Char.ofNat_toNat]
  rw [h]
  rfl

/-! ## Claim theorems: wallet forwarding and management -/

/-- C1: for every unsent update-call descriptor and every cycle quantity
(including zero), the envelope built by `call_forward` carries exactly the
descriptor target address, method name and argument bytes — hence never the
(distinct) wallet address — and its cycles field equals the supplied
quantity exactly. -/
theorem call_forward_envelope_exact (call : UpdateBuilder) (cycles : Nat)
    (wallet_id : Principal) (hw : wallet_id ≠ call.canister_id) :
    (call_forward_envelope call cycles).canister = call.canister_id
    ∧ (call_forward_envelope call cycles).method_name = call.method_name
    ∧ (call_forward_envelope call cycles).args = call.arg
    ∧ (call_forward_envelope call cycles).cycles = cycles
    ∧ (call_forward_envelope call cycles).canister ≠ wallet_id :=
  ⟨rfl, rfl, rfl, rfl, fun h => hw h.symm⟩

theorem call_forward_envelope_exact_witness :
    (call_forward_envelope (update_raw ⟨[2]⟩ "transfer" (some [9, 9])) 0).cycles = 0 :=
  (call_forward_envelope_exact (update_raw ⟨[2]⟩ "transfer" (some [9, 9])) 0 ⟨[1]⟩
    (by decide)).2.2.2.1

/-- C2: the forwarding submission is an update call whose destination is the
wallet address (not the descriptor target) and whose method is the fixed
name `wallet_call`, carrying the serialized envelope as its argument. -/
theorem call_forward_request_targets_wallet (wallet_id : Principal)
    (call : UpdateBuilder) (cycles : Nat) :
    (call_forward_request wallet_id call cycles).canister_id = wallet_id
    ∧ (call_forward_request wallet_id call cycles).method_name = "wallet_call"
    ∧ (call_forward_request wallet_id call cycles).arg
        = encode_CallForwardArgs (call_forward_envelope call cycles) :=
  ⟨rfl, rfl, rfl⟩

/-- C5: decoding the encoded install payload reproduces exactly the mode,
address, module bytes and argument bytes supplied, for every payload. -/
theorem decode_encode_CanisterInstall (c : CanisterInstall) :
    decode_CanisterInstall (encode_CanisterInstall c) = some c := by
  obtain ⟨mode, ⟨cid⟩, wasm, arg⟩ := c
  have hmode : decodeInstallMode (encodeInstallMode mode) = some mode := by
    cases mode <;> rfl
  simp [encode_CanisterInstall, decode_CanisterInstall, List.append_assoc, hmode,
    decBlob_encBlob, decBlob_encBlob_nil]

/-- C3: a forwarded call whose decoded reply is the inner error variant with
message `m` returns exactly the failure `Generic m` and never a success
payload; and a mismatch when decoding the opaque success payload at the
expected output type is a `Candid` failure, a kind distinct from the
wallet-reported `Generic` error. -/
theorem call_forward_error_variant_distinct
    (wallet_id : Principal) (call : UpdateBuilder) (cycles : Nat)
    (transport : UpdateBuilder → Except Error Bytes)
    (decodeReply : Bytes → Except String (Except String CallResult))
    (data : Bytes) (m : String) (out : OutType) (payload : Bytes)
    (htr : transport (call_forward_request wallet_id call cycles) = .ok data)
    (hdec : decodeReply data = .ok (.error m))
    (hmis : decodeAt out payload = none) :
    call_forward wallet_id call cycles transport decodeReply = .error (.Generic m)
    ∧ (∀ p : Bytes, call_forward wallet_id call cycles transport decodeReply ≠ .ok p)
    ∧ decode_out_step out payload = .error (.Candid candidMismatchMsg)
    ∧ (∀ s : String, (Error.Candid candidMismatchMsg) ≠ .Generic s) := by
  have h1 : call_forward wallet_id call cycles transport decodeReply
      = .error (.Generic m) := by
    simp [call_forward, htr, call_forward_unwrap, hdec, Error.fromString]
  refine ⟨h1, ?_, ?_, ?_⟩
  · intro p hp
    rw [h1] at hp
    exact Except.noConfusion hp
  · simp [decode_out_step, hmis]
  · intro s h
    exact Error.noConfusion h

theorem call_forward_error_variant_distinct_witness :
    call_forward ⟨[1]⟩ (update_raw ⟨[2]⟩ "go" none) 5 (fun _ => .ok [3])
      (fun _ => .ok (.error "boom")) = .error (.Generic "boom") :=
  (call_forward_error_variant_distinct ⟨[1]⟩ (update_raw ⟨[2]⟩ "go" none) 5
    (fun _ => .ok [3]) (fun _ => .ok (.error "boom")) [3] "boom" .unit [9]
    rfl rfl (by decide)).1

/-- C4: the upgrade operation decodes the forwarding result at the returned
principal type, while install, stop and delete decode it at the empty
success payload type, for every invocation; the two expected payload shapes
are distinct, and the modelled decoders only produce values of the matching
shape. -/
theorem management_out_shape_asymmetry (canister_id : Principal)
    (bytecode arg_encoded : Bytes) :
    (upgrade_code canister_id bytecode arg_encoded).out = .principal
    ∧ (install_code canister_id bytecode arg_encoded).out = .unit
    ∧ (stop_canister canister_id).out = .unit
    ∧ (delete_canister canister_id).out = .unit
    ∧ OutType.principal ≠ OutType.unit
    ∧ (∀ b v, decodeAt .principal b = some v → ∃ p, v = DecodedOut.principal p)
    ∧ (∀ b v, decodeAt .unit b = some v → v = DecodedOut.unit) := by
  refine ⟨rfl, rfl, rfl, rfl, by decide, ?_, ?_⟩
  · intro b v h
    simp only [decodeAt] at h
    split at h
    · split at h
      · exact ⟨_, (Option.some.inj h).symm⟩
      · exact absurd h (by simp)
    · exact absurd h (by simp)
  · intro b v h
    simp only [decodeAt] at h
    split at h
    · exact (Option.some.inj h).symm
    · exact absurd h (by simp)

theorem management_out_shape_asymmetry_witness :
    (upgrade_code ⟨[4]⟩ [1, 2] [3]).out = OutType.principal :=
  (management_out_shape_asymmetry ⟨[4]⟩ [1, 2] [3]).1

/-! ## Helper lemmas for the account mapping -/

theorem lookupAccount_eraseKey_self (k : AccountIdentifier)
    (l : List (AccountIdentifier × Tokens)) :
    lookupAccount k (eraseKey k l) = none := by
  induction l with
  | nil => rfl
  | cons e rest ih =>
    by_cases h : e.1 = k
    · simp [eraseKey, h, ih]
    · simp [eraseKey, h, lookupAccount, ih]

theorem lookupAccount_eraseKey_other (k k' : AccountIdentifier) (hne : k' ≠ k)
    (l : List (AccountIdentifier × Tokens)) :
    lookupAccount k' (eraseKey k l) = lookupAccount k' l := by
  induction l with
  | nil => rfl
  | cons e rest ih =>
    by_cases h : e.1 = k
    · have h2 : e.1 ≠ k' := fun hh => hne (hh ▸ h)
      simp [eraseKey, h, lookupAccount, h2, ih, Ne.symm hne]
    · by_cases h2 : e.1 = k'
      · simp [eraseKey, h, lookupAccount, h2, hne]
      · simp [eraseKey, h, lookupAccount, h2, ih]

theorem lookupAccount_insertAccount_self (k : AccountIdentifier) (v : Tokens)
    (l : List (AccountIdentifier × Tokens)) :
    lookupAccount k (insertAccount k v l) = some v := by
  simp [insertAccount, lookupAccount]

theorem lookupAccount_insertAccount_other (k k' : AccountIdentifier) (hne : k' ≠ k)
    (v : Tokens) (l : List (AccountIdentifier × Tokens)) :
    lookupAccount k' (insertAccount k v l) = lookupAccount k' l := by
  have hk : k ≠ k' := hne.symm
  simp [insertAccount, lookupAccount, hk, lookupAccount_eraseKey_other k k' hne l]

theorem not_mem_keys_eraseKey (k : AccountIdentifier)
    (l : List (AccountIdentifier × Tokens)) :
    k ∉ (eraseKey k l).map Prod.fst := by
  induction l with
  | nil => simp [eraseKey]
  | cons e rest ih =>
    by_cases h : e.1 = k
    · simpa [eraseKey, h] using ih
    · rw [eraseKey, if_neg h]
      simp only [List.map_cons, List.mem_cons]
      rintro (hh | hh)
      · exact h hh.symm
      · exact ih hh

theorem mem_keys_eraseKey (k a : AccountIdentifier)
    (l : List (AccountIdentifier × Tokens))
    (h : a ∈ (eraseKey k l).map Prod.fst) : a ∈ l.map Prod.fst := by
  induction l with
  | nil => exact h
  | cons e rest ih =>
    by_cases hk : e.1 = k
    · rw [eraseKey, if_pos hk] at h
      exact List.mem_cons_of_mem _ (ih h)
    · rw [eraseKey, if_neg hk] at h
      rcases List.mem_cons.1 h with hh | hh
      · exact List.mem_cons.2 (Or.inl hh)
      · exact List.mem_cons_of_mem _ (ih hh)

theorem keysUnique_eraseKey (k : AccountIdentifier)
    (l : List (AccountIdentifier × Tokens)) (h : keysUnique l) :
    keysUnique (eraseKey k l) := by
  induction l with
  | nil => exact h
  | cons e rest ih =>
    rw [keysUnique, List.map_cons, List.nodup_cons] at h
    by_cases hk : e.1 = k
    · rw [eraseKey, if_pos hk]
      exact ih h.2
    · rw [keysUnique, eraseKey, if_neg hk, List.map_cons, List.nodup_cons]
      exact ⟨fun hm => h.1 (mem_keys_eraseKey k e.1 rest hm), ih h.2⟩

theorem keysUnique_insertAccount (k : AccountIdentifier) (v : Tokens)
    (l : List (AccountIdentifier × Tokens)) (h : keysUnique l) :
    keysUnique (insertAccount k v l) := by
  rw [insertAccount, keysUnique, List.map_cons, List.nodup_cons]
  exact ⟨not_mem_keys_eraseKey k l, keysUnique_eraseKey k l h⟩

theorem get_identity_error_shape (env : Env) (name : String) (e : Error)
    (h : get_identity env name = .error e) :
    e = .MissingConfig ∨ ∃ s, e = .Ident s := by
  unfold get_identity at h
  split at h
  · exact Or.inl (Except.error.inj h).symm
  · split at h
    · exact Or.inr ⟨_, (Except.error.inj h).symm⟩
    · exact absurd h (by simp)

/-! ## Claim theorems: ledger bootstrap -/

/-- C6: from a fresh builder, adding two accounts under names resolving to
distinct account identifiers, with their balances, and then finalizing
produces an initialization payload whose account mapping holds exactly those
two entries with their respective balances, and whose minting account is the
account derived from the owner identity. -/
theorem ledger_two_accounts_exact
    (env : Env) (ownerName n1 n2 accName : String) (cyc : Option Nat)
    (i1 i2 io : BasicIdentity) (p1 p2 po : Principal) (t1 t2 : Tokens)
    (h1 : get_identity env n1 = .ok i1) (hs1 : i1.sender = .ok p1)
    (h2 : get_identity env n2 = .ok i2) (hs2 : i2.sender = .ok p2)
    (ho : get_identity env ownerName = .ok io) (hso : io.sender = .ok po)
    (hne : AccountIdentifier.new p1 ≠ AccountIdentifier.new p2) :
    ∃ call : CreateCall,
      (build env
        (with_account env (with_account env (new_ledger_canister ownerName) n1 t1).1 n2 t2).1
        accName cyc).2 = .ok call
      ∧ lookupAccount (AccountIdentifier.new p1) call.arg.initial_values = some t1
      ∧ lookupAccount (AccountIdentifier.new p2) call.arg.initial_values = some t2
      ∧ (∀ k t, lookupAccount k call.arg.initial_values = some t
          → k = AccountIdentifier.new p1 ∨ k = AccountIdentifier.new p2)
      ∧ call.arg.minting_account = AccountIdentifier.new po := by
  have hb1 : (with_account env (new_ledger_canister ownerName) n1 t1).1
      = { owner := ownerName, accounts := [(AccountIdentifier.new p1, t1)] } := by
    simp [with_account, h1, hs1, new_ledger_canister, insertAccount, eraseKey]
  rw [hb1]
  have hb2 : (with_account env
      { owner := ownerName, accounts := [(AccountIdentifier.new p1, t1)] } n2 t2).1
      = { owner := ownerName,
          accounts := [(AccountIdentifier.new p2, t2), (AccountIdentifier.new p1, t1)] } := by
    simp [with_account, h2, hs2, insertAccount, eraseKey, hne]
  rw [hb2]
  simp only [build, ho, hso]
  refine ⟨_, rfl, ?_, ?_, ?_, rfl⟩
  · simp [lookupAccount, Ne.symm hne]
  · simp [lookupAccount]
  · intro k t hk
    simp only [lookupAccount] at hk
    split at hk
    · rename_i hcond
      exact Or.inr hcond.symm
    · split at hk
      · rename_i hcond
        exact Or.inl hcond.symm
      · exact absurd hk (by simp)

theorem ledger_two_accounts_exact_witness :
    ∃ call : CreateCall,
      (build envTwo
        (with_account envTwo
          (with_account envTwo (new_ledger_canister "owner") "alice" 100).1 "bob" 50).1
        "max" none).2 = .ok call
      ∧ lookupAccount (AccountIdentifier.new ⟨[1]⟩) call.arg.initial_values = some 100
      ∧ lookupAccount (AccountIdentifier.new ⟨[2]⟩) call.arg.initial_values = some 50
      ∧ (∀ k t, lookupAccount k call.arg.initial_values = some t
          → k = AccountIdentifier.new ⟨[1]⟩ ∨ k = AccountIdentifier.new ⟨[2]⟩)
      ∧ call.arg.minting_account = AccountIdentifier.new ⟨[3]⟩ :=
  ledger_two_accounts_exact envTwo "owner" "alice" "bob" "max" none
    ⟨.ok ⟨[1]⟩⟩ ⟨.ok ⟨[2]⟩⟩ ⟨.ok ⟨[3]⟩⟩ ⟨[1]⟩ ⟨[2]⟩ ⟨[3]⟩ 100 50
    (by simp [get_identity, envTwo, identPath]) rfl
    (by simp [get_identity, envTwo, identPath]) rfl
    (by simp [get_identity, envTwo, identPath]) rfl
    (by decide)

/-- C7: inserting a balance twice under the same name overwrites: the mapping
afterwards binds the derived account to the second balance, every other
account is untouched, and key uniqueness of the mapping is preserved. -/
theorem with_account_same_name_overwrites
    (env : Env) (b : LedgerBuilder) (name : String) (t1 t2 : Tokens)
    (i : BasicIdentity) (p : Principal)
    (hid : get_identity env name = .ok i) (hs : i.sender = .ok p) :
    lookupAccount (AccountIdentifier.new p)
        ((with_account env (with_account env b name t1).1 name t2).1).accounts = some t2
    ∧ (∀ k, k ≠ AccountIdentifier.new p →
        lookupAccount k ((with_account env (with_account env b name t1).1 name t2).1).accounts
          = lookupAccount k b.accounts)
    ∧ (keysUnique b.accounts →
        keysUnique ((with_account env (with_account env b name t1).1 name t2).1).accounts) := by
  have hacc : ((with_account env (with_account env b name t1).1 name t2).1).accounts
      = insertAccount (AccountIdentifier.new p) t2
          (insertAccount (AccountIdentifier.new p) t1 b.accounts) := by
    simp [with_account, hid, hs]
  rw [hacc]
  refine ⟨lookupAccount_insertAccount_self _ _ _, ?_, ?_⟩
  · intro k hk
    rw [lookupAccount_insertAccount_other _ k hk,
      lookupAccount_insertAccount_other _ k hk]
  · intro hu
    exact keysUnique_insertAccount _ _ _ (keysUnique_insertAccount _ _ _ hu)

theorem with_account_same_name_overwrites_witness :
    lookupAccount (AccountIdentifier.new ⟨[1]⟩)
      ((with_account envTwo
        (with_account envTwo (new_ledger_canister "owner") "alice" 7).1
        "alice" 9).1).accounts = some 9 :=
  (with_account_same_name_overwrites envTwo (new_ledger_canister "owner")
    "alice" 7 9 ⟨.ok ⟨[1]⟩⟩ ⟨[1]⟩
    (by simp [get_identity, envTwo, identPath]) rfl).1

/-- C8: a successful finalization moves the whole accumulated mapping out of
the builder (the builder mapping is empty afterwards), leaves every optional
tuning field of the initialization payload absent, and issues the creation
call with exactly 1_000_000_000_000 cycles when the caller supplies no
override, and with the caller value when one is supplied. -/
theorem build_moves_map_and_defaults
    (env : Env) (b : LedgerBuilder) (accName : String) (cyc : Option Nat)
    (io : BasicIdentity) (p : Principal)
    (ho : get_identity env b.owner = .ok io) (hs : io.sender = .ok p) :
    ∃ call : CreateCall,
      build env b accName cyc = ({ b with accounts := [] }, .ok call)
      ∧ call.arg.initial_values = b.accounts
      ∧ call.arg.max_message_size_bytes = none
      ∧ call.arg.transaction_window = none
      ∧ call.arg.archive_options = none
      ∧ call.arg.send_whitelist = []
      ∧ (cyc = none → call.cycles = 1000000000000)
      ∧ (∀ c, cyc = some c → call.cycles = c)
      ∧ ((build env b accName cyc).1).accounts = [] := by
  refine ⟨{ account_name := accName, wasm := LEDGER_WASM,
            arg := { minting_account := AccountIdentifier.new p,
                     initial_values := b.accounts,
                     max_message_size_bytes := none,
                     transaction_window := none,
                     archive_options := none,
                     send_whitelist := [] },
            cycles := cyc.getD 1000000000000 },
          ?_, rfl, rfl, rfl, rfl, rfl, ?_, ?_, ?_⟩
  · simp only [build, ho, hs]
  · intro h
    rw [h]
    rfl
  · intro c h
    rw [h]
    rfl
  · simp only [build, ho, hs]

theorem build_moves_map_and_defaults_witness :
    ∃ call : CreateCall,
      build envTwo (new_ledger_canister "owner") "max" none
        = ({ owner := "owner", accounts := [] }, .ok call)
      ∧ call.arg.initial_values = []
      ∧ call.arg.max_message_size_bytes = none
      ∧ call.arg.transaction_window = none
      ∧ call.arg.archive_options = none
      ∧ call.arg.send_whitelist = []
      ∧ (none = (none : Option Nat) → call.cycles = 1000000000000)
      ∧ (∀ c, (none : Option Nat) = some c → call.cycles = c)
      ∧ ((build envTwo (new_ledger_canister "owner") "max" none).1).accounts = [] :=
  build_moves_map_and_defaults envTwo (new_ledger_canister "owner") "max" none
    ⟨.ok ⟨[3]⟩⟩ ⟨[3]⟩ (by simp [get_identity, envTwo, identPath, new_ledger_canister]) rfl

/-- C9: when the owner name of a fresh builder does not resolve to an
identity, finalization fails with the identity-resolution error (a missing
config directory or an unreadable PEM file) and never produces a
canister-creation call — the failure happens before any network call. -/
theorem build_identity_failure_before_network
    (env : Env) (ownerName accName : String) (cyc : Option Nat) (e : Error)
    (h : get_identity env ownerName = .error e) :
    build env (new_ledger_canister ownerName) accName cyc
        = (new_ledger_canister ownerName, .error e)
    ∧ (∀ call : CreateCall,
        (build env (new_ledger_canister ownerName) accName cyc).2 ≠ .ok call)
    ∧ (e = .MissingConfig ∨ ∃ s, e = .Ident s) := by
  have h1 : build env (new_ledger_canister ownerName) accName cyc
      = (new_ledger_canister ownerName, .error e) := by
    simp only [build, new_ledger_canister] at *
    rw [h]
  refine ⟨h1, ?_, get_identity_error_shape env ownerName e h⟩
  intro call hc
  rw [h1] at hc
  exact Except.noConfusion hc

theorem build_identity_failure_before_network_witness :
    build { configDir := none, pemFile := fun _ => none }
        (new_ledger_canister "nobody") "max" none
      = (new_ledger_canister "nobody", .error .MissingConfig) :=
  (build_identity_failure_before_network { configDir := none, pemFile := fun _ => none }
    "nobody" "max" none .MissingConfig rfl).1

/-- C10: a failure at identity resolution leaves the accumulated account
mapping untouched: a failing add-account performs no insertion, a failing
finalization returns the builder unchanged, and the mapping is moved out
only when the owner identity (and its principal) resolve successfully. -/
theorem identity_failure_leaves_builder_unchanged
    (env : Env) (b : LedgerBuilder) (name accName : String) (tokens : Tokens)
    (cyc : Option Nat) :
    (∀ e, (with_account env b name tokens).2 = .error e
        → (with_account env b name tokens).1 = b)
    ∧ (∀ e, (build env b accName cyc).2 = .error e → (build env b accName cyc).1 = b)
    ∧ (∀ call, (build env b accName cyc).2 = .ok call
        → ∃ i p, get_identity env b.owner = .ok i ∧ i.sender = .ok p) := by
  refine ⟨?_, ?_, ?_⟩
  · intro e he
    cases hid : get_identity env name with
    | error e2 => simp [with_account, hid]
    | ok i =>
      cases hs : i.sender with
      | error s => simp [with_account, hid, hs]
      | ok p => simp [with_account, hid, hs] at he
  · intro e he
    cases hid : get_identity env b.owner with
    | error e2 => simp [build, hid]
    | ok i =>
      cases hs : i.sender with
      | error s => simp [build, hid, hs]
      | ok p => simp [build, hid, hs] at he
  · intro call hc
    cases hid : get_identity env b.owner with
    | error e2 => simp [build, hid] at hc
    | ok i =>
      cases hs : i.sender with
      | error s => simp [build, hid, hs] at hc
      | ok p => exact ⟨i, p, rfl, hs⟩

theorem identity_failure_leaves_builder_unchanged_witness :
    (with_account { configDir := none, pemFile := fun _ => none }
        (new_ledger_canister "o") "alice" 5).1 = new_ledger_canister "o" :=
  (identity_failure_leaves_builder_unchanged { configDir := none, pemFile := fun _ => none }
    (new_ledger_canister "o") "alice" "max" 5 none).1 .MissingConfig rfl

end ICTestUtils
